import Mathlib

/-!
Shallow embedding of the DELTA taxonomic query engine (`src/query_engine.py`),
verified against the natural-language specification.

The engine works over a SQLite database; we embed the relevant tables
(`characters`, `character_states`, `items`, `item_character_attributes`) as
lists of records, and each SQL query of the engine as a Lean function over
those lists.  SQL `NULL` columns become `Option`; SQL's three-valued logic is
reflected by making every comparison against a `NULL` column fail.  REAL
values are embedded as `Rat` (the engine only compares them, so exactness is
what matters).  The `state_values` column stores a JSON int-array (written by
`delta_parser.create_database` via `json.dumps`), embedded as `List Int`
together with its stored text rendering where the queries treat it as TEXT.
-/

namespace Delta

/-- One row of `item_character_attributes` (see the INSERT in
`delta_parser.create_database`): at most one value column is populated, or one
of the pseudo flags is set. The embedding keeps all columns so the engine's
CASE expressions can be translated branch for branch. -/
structure Attr where
  itemId : Nat
  characterId : Nat
  isUnknown : Bool
  isVariable : Bool
  isNotApplicable : Bool
  integerValue : Option Int
  realValue : Option Rat
  textValue : Option String
  stateValues : Option (List Int)
  rangeMin : Option Rat
  rangeMax : Option Rat
deriving DecidableEq, Repr

/-- One row of `characters`. -/
structure Character where
  id : Nat
  characterNumber : Int
  featureDescription : String
  characterType : String
  omitFromKey : Bool
  mandatory : Bool
deriving DecidableEq, Repr

/-- One row of `character_states`. -/
structure CharacterState where
  characterId : Nat
  stateNumber : Int
  stateDescription : String
deriving DecidableEq, Repr

/-- One row of `items`. -/
structure Item where
  id : Nat
  itemName : String
  itemNumber : Int
deriving DecidableEq, Repr

/-- The database consumed by `TaxonomicQueryEngine`. -/
structure DB where
  items : List Item
  characters : List Character
  characterStates : List CharacterState
  attrs : List Attr
deriving DecidableEq, Repr

/-- `ica.is_unknown OR ica.is_variable OR ica.is_not_applicable` — the pseudo
test used throughout `query_engine.py`. -/
def Attr.isPseudo (a : Attr) : Bool :=
  a.isUnknown || a.isVariable || a.isNotApplicable

/-- Text rendering of the `state_values` column as stored
(`json.dumps([1, 2]) = "[1, 2]"`). -/
def stateText (ss : List Int) : String :=
  "[" ++ String.intercalate ", " (ss.map toString) ++ "]"

/-- A value produced by the CASE expressions used for
`COUNT(DISTINCT ...)`: SQLite compares INTEGER and REAL numerically (so both
map to `numC`), while TEXT (including the JSON text of `state_values`) is a
separate comparison class. -/
inductive CodedVal where
  | numC (q : Rat)
  | textC (s : String)
deriving DecidableEq, Repr

/-- The CASE expression inside `COUNT(DISTINCT ...)` in
`get_character_rankings` (lines 89-97) and `_filter_discriminating_characters`
(lines 295-303): pseudo rows yield NULL, otherwise the first non-NULL of
integer, real, text, state_values (the latter as its stored TEXT). -/
def distinctCaseVal (a : Attr) : Option CodedVal :=
  if a.isPseudo then none
  else match a.integerValue with
  | some v => some (.numC v)
  | none => match a.realValue with
    | some q => some (.numC q)
    | none => match a.textValue with
      | some s => some (.textC s)
      | none => match a.stateValues with
        | some ss => some (.textC (stateText ss))
        | none => none

/-- `COUNT(DISTINCT CASE ... END)` over a set of attribute rows: NULLs are
ignored, distinct remaining values are counted. -/
def distinctCount (rows : List Attr) : Nat :=
  ((rows.filterMap distinctCaseVal).dedup).length

/-- A Python value passed as the `value` argument of a filter clause (the
shapes dispatched on in `_build_character_filter_cte`); `pyOther` stands for
every other shape (dict, None, ...), which the source sends to its `1=1`
fallback branch. -/
inductive PyValue where
  | pyInt (v : Int)
  | pyFloat (q : Rat)
  | pyStr (s : String)
  | pyList (l : List PyValue)
  | pyOther
deriving Repr

/-- Numeric view of a Python value (`isinstance(v, (int, float))`). -/
def PyValue.asNum : PyValue → Option Rat
  | .pyInt v => some v
  | .pyFloat q => some q
  | _ => none

def PyValue.isNum (v : PyValue) : Bool := v.asNum.isSome

/-- `json_extract(ica.state_values, '$[0]')`: first element of the stored
JSON array, NULL when the column is NULL or the array empty. -/
def firstState (a : Attr) : Option Int :=
  a.stateValues.bind List.head?

/-- `ica.integer_value IN (...) OR json_extract(ica.state_values,'$[0]') IN (...)`
— the multistate branch of `_build_character_filter_cte` (lines 260-265).
The IN-list is the textual join of the Python list's elements; its numeric
elements become SQL numeric literals (a non-numeric element would make the
generated SQL invalid, which is outside this model). -/
def multistateCondition (l : List PyValue) (a : Attr) : Bool :=
  (l.any fun x => match x.asNum, a.integerValue with
    | some q, some iv => q == (iv : Rat)
    | _, _ => false) ||
  (l.any fun x => match x.asNum, firstState a with
    | some q, some s0 => q == (s0 : Rat)
    | _, _ => false)

/-- `min_val BETWEEN`-style range branch of `_build_character_filter_cte`
(lines 251-258); `min_val, max_val = value` takes the two list elements in the
order given. Comparisons against NULL columns fail. -/
def rangeCondition (minv maxv : Rat) (a : Attr) : Bool :=
  (match a.rangeMin, a.rangeMax with
   | some lo, some hi => decide (lo ≤ maxv) && decide (minv ≤ hi)
   | _, _ => false) ||
  (match a.integerValue with
   | some iv => decide (minv ≤ (iv : Rat)) && decide ((iv : Rat) ≤ maxv)
   | none => false) ||
  (match a.realValue with
   | some rv => decide (minv ≤ rv) && decide (rv ≤ maxv)
   | none => false)

/-- The `value_condition` dispatch of `_build_character_filter_cte`
(lines 241-268), branch for branch:
  * `int` → `integer_value = v OR json_extract(state_values,'$[0]') = v`;
  * `float` → `real_value = v`;
  * `str` → `text_value = 'v'` (SQL quoting has no semantic content here);
  * two-element all-numeric `list` → range overlap / BETWEEN;
  * any other `list` → the multistate IN condition;
  * anything else → the source's `1=1` match-all fallback. -/
def valueCondition (value : PyValue) (a : Attr) : Bool :=
  match value with
  | .pyInt v => a.integerValue == some v || firstState a == some v
  | .pyFloat q => a.realValue == some q
  | .pyStr s => a.textValue == some s
  | .pyList l =>
    match l with
    | [x, y] =>
      if x.isNum && y.isNum then
        rangeCondition (x.asNum.getD 0) (y.asNum.getD 0) a
      else
        multistateCondition l a
    | _ => multistateCondition l a
  | .pyOther => true

/-- Two-key lexicographic order used to embed the engine's `ORDER BY` clauses:
first key ascending (descending keys are obtained by dualising the key type),
second key ascending as tie-break. Totality/transitivity below feed
`List.insertionSort`. -/
def lex2 {α K1 K2 : Type} [LinearOrder K1] [LinearOrder K2]
    (f : α → K1) (g : α → K2) (a b : α) : Prop :=
  f a < f b ∨ (f a = f b ∧ g a ≤ g b)

instance lex2.decidableRel {α K1 K2 : Type} [LinearOrder K1] [LinearOrder K2]
    (f : α → K1) (g : α → K2) : DecidableRel (lex2 f g) := fun a b => by
  unfold lex2; infer_instance

def lex2.isTotal {α K1 K2 : Type} [LinearOrder K1] [LinearOrder K2]
    (f : α → K1) (g : α → K2) : IsTotal α (lex2 f g) := by
  constructor
  intro a b
  rcases lt_trichotomy (f a) (f b) with h | h | h
  · exact Or.inl (Or.inl h)
  · rcases le_total (g a) (g b) with hg | hg
    · exact Or.inl (Or.inr ⟨h, hg⟩)
    · exact Or.inr (Or.inr ⟨h.symm, hg⟩)
  · exact Or.inr (Or.inl h)

def lex2.isTrans {α K1 K2 : Type} [LinearOrder K1] [LinearOrder K2]
    (f : α → K1) (g : α → K2) : IsTrans α (lex2 f g) := by
  constructor
  rintro a b c (hab | ⟨hab, hab2⟩) (hbc | ⟨hbc, hbc2⟩)
  · exact Or.inl (lt_trans hab hbc)
  · exact Or.inl (hbc ▸ hab)
  · exact Or.inl (hab ▸ hbc)
  · exact Or.inr ⟨hab.trans hbc, hab2.trans hbc2⟩

/-- The `CharacterInfo` dataclass of `query_engine.py`; `states` is `None`
except for multistate (UM/OM) characters, where it is the
state-number → description mapping returned by `_get_character_states`
(ordered by state number). -/
structure CharacterInfo where
  number : Int
  description : String
  characterType : String
  distinctValues : Nat
  codingCompleteness : Rat
  states : Option (List (Int × String))
deriving DecidableEq, Repr

/-- The `selectivity_score` property:
`distinct_values * coding_completeness`. -/
def CharacterInfo.selectivityScore (ci : CharacterInfo) : Rat :=
  (ci.distinctValues : Rat) * ci.codingCompleteness

/-- `_get_character_states`: states of a character, joined on the character id
and ordered by state number. (The Python side stores them in a dict keyed by
state number; we keep the ordered association list.) -/
def getCharacterStates (db : DB) (charNum : Int) : List (Int × String) :=
  List.insertionSort (lex2 (fun p => p.1) (fun p => p.2))
    ((db.characterStates.filter fun cs =>
        db.characters.any fun c => c.id == cs.characterId && c.characterNumber == charNum).map
      fun cs => (cs.stateNumber, cs.stateDescription))

/-- The rows of `item_character_attributes` grouped with character `c` by the
`LEFT JOIN ... GROUP BY c.id` of `get_character_rankings`. -/
def charCodings (db : DB) (c : Character) : List Attr :=
  db.attrs.filter fun a => a.characterId == c.id

/-- `distinct_values` of the `character_metrics` CTE. -/
def charDistinct (db : DB) (c : Character) : Nat :=
  distinctCount (charCodings db c)

/-- `coding_completeness` of the `character_metrics` CTE: non-pseudo codings
over all codings. (When the character has no codings at all the SQL value is
NULL — division by zero — and the row is dropped by the HAVING clause; here
`Rat` division by zero gives 0, which the same `> 0.5` test also drops, and
`characterMetrics` additionally guards on it explicitly.) -/
def charCompleteness (db : DB) (c : Character) : Rat :=
  (((charCodings db c).filter fun a => !a.isPseudo).length : Rat) /
    ((charCodings db c).length : Rat)

/-- The `CharacterInfo` built from one row of `get_character_rankings`'s
result set (lines 132-146). -/
def mkCharacterInfo (db : DB) (c : Character) : CharacterInfo :=
  { number := c.characterNumber
    description := c.featureDescription
    characterType := c.characterType
    distinctValues := charDistinct db c
    codingCompleteness := charCompleteness db c
    states :=
      if c.characterType == "UM" || c.characterType == "OM" then
        some (getCharacterStates db c.characterNumber)
      else none }

/-- One group of the `character_metrics` CTE, with its `HAVING` clause:
`coding_completeness > 0.5 AND distinct_values > 1` (a character with zero
codings has NULL completeness and is dropped). -/
def characterMetrics (db : DB) (c : Character) : Option CharacterInfo :=
  if (charCodings db c).length ≠ 0 ∧
      (1 : Rat) / 2 < charCompleteness db c ∧ 1 < charDistinct db c then
    some (mkCharacterInfo db c)
  else none

/-- The `ORDER BY selectivity_score DESC, distinct_values DESC` ordering. -/
def rankLE : CharacterInfo → CharacterInfo → Prop :=
  lex2 (fun ci => OrderDual.toDual ci.selectivityScore)
    (fun ci => OrderDual.toDual ci.distinctValues)

instance : DecidableRel rankLE := lex2.decidableRel _ _
instance : IsTotal CharacterInfo rankLE := lex2.isTotal _ _
instance : IsTrans CharacterInfo rankLE := lex2.isTrans _ _

/-- `get_character_rankings`: characters that are not omitted, not mandatory
and not excluded (`NOT IN` — with an empty exclusion set the clause is not
emitted at all, which is the same condition), grouped with their codings,
kept by the HAVING clause and ordered by selectivity score then distinct
values, both descending. -/
def getCharacterRankings (db : DB) (excluded : List Int) : List CharacterInfo :=
  List.insertionSort rankLE
    (((db.characters.filter fun c =>
        !c.omitFromKey && !c.mandatory && !excluded.contains c.characterNumber).filterMap
      (characterMetrics db)))

/-- The WHERE clause of one filter CTE from `_build_character_filter_cte`
(lines 270-280): the item has an attribute row for a character with the given
number, the row is not pseudo, and the row satisfies the value condition. -/
def matchesClause (db : DB) (charNum : Int) (value : PyValue) (i : Item) : Bool :=
  db.attrs.any fun a =>
    a.itemId == i.id &&
    (db.characters.any fun c => c.id == a.characterId && c.characterNumber == charNum) &&
    !a.isPseudo && valueCondition value a

/-- One filter CTE applied to the previous CTE's items (`SELECT DISTINCT`
keeps each surviving item once; the source set is already duplicate-free). -/
def filterStep (db : DB) (s : List Item) (clause : Int × PyValue) : List Item :=
  s.filter (matchesClause db clause.1 clause.2)

/-- The composed CTE chain of `query_items_by_character`: the base CTE is all
items, and each clause of the chain filters the previous CTE, left to right. -/
def applyChain (db : DB) (chain : List (Int × PyValue)) : List Item :=
  chain.foldl (filterStep db) db.items

/-- `ORDER BY fi.item_name` of the main query. -/
def nameLE : Item → Item → Prop :=
  lex2 (fun i => i.itemName) (fun i => i.itemName)

instance : DecidableRel nameLE := lex2.decidableRel _ _
instance : IsTotal Item nameLE := lex2.isTotal _ _
instance : IsTrans Item nameLE := lex2.isTrans _ _

/-- The per-character distinct count of `_filter_discriminating_characters`
(lines 294-310), restricted to the given remaining item numbers. -/
def distinctAmong (db : DB) (charNum : Int) (itemNumbers : List Int) : Nat :=
  distinctCount (db.attrs.filter fun a =>
    (db.characters.any fun c => c.id == a.characterId && c.characterNumber == charNum) &&
    (db.items.any fun i => i.id == a.itemId && itemNumbers.contains i.itemNumber))

/-- `_filter_discriminating_characters`: empty when at most one item remains,
otherwise keeps the candidates whose distinct count over the remaining items
exceeds 1. -/
def filterDiscriminating (db : DB) (candidates : List CharacterInfo)
    (remaining : List Int) : List CharacterInfo :=
  if remaining.length ≤ 1 then []
  else candidates.filter fun ch => 1 < distinctAmong db ch.number remaining

/-- Result of `query_items_by_character` (the `query_sql` text field carries
no semantics and is omitted). -/
structure QueryResult where
  matchingItems : List Item
  characterCandidates : List CharacterInfo
deriving DecidableEq, Repr

/-- `query_items_by_character` (lines 166-235): survivors of the previous
filters plus the current clause, ordered by item name; when any item survives,
candidate characters are ranked with all used character numbers excluded and
then pruned against the surviving item numbers. -/
def queryItemsByCharacter (db : DB) (charNum : Int) (value : PyValue)
    (previousFilters : List (Int × PyValue)) : QueryResult :=
  let chain := previousFilters ++ [(charNum, value)]
  let matching := List.insertionSort nameLE (applyChain db chain)
  { matchingItems := matching
    characterCandidates :=
      if matching.isEmpty then []
      else
        filterDiscriminating db
          (getCharacterRankings db (chain.map Prod.fst))
          (matching.map fun i => i.itemNumber) }

/-- A `raw_value` as it comes back from SQLite into Python: an int, a float or
a string. (SQLite would compare an INTEGER and a REAL raw value numerically,
but two such rows always carry different `value_display` texts, so the
`GROUP BY raw_value, value_display` groups of `get_character_values` coincide
with grouping by this tagged value.) -/
inductive RawV where
  | intR (v : Int)
  | realR (q : Rat)
  | textR (s : String)
deriving DecidableEq, Repr

/-- Stand-in for SQLite's `CAST(REAL AS TEXT)` decimal rendering. The engine
never branches on the content of this text — it is only displayed and used as
an opaque sort/grouping key — so the exact decimal format is not modelled;
any injective rendering gives the same grouping. -/
def realText (q : Rat) : String := toString q

/-- The `value_display` CASE of `get_character_values` (lines 333-344). The
pseudo branches are unreachable under the query's `WHERE NOT (...)` but are
kept branch for branch; the range branch concatenates both bounds (with a
NULL bound the SQL concatenation would be NULL — the parser always stores
both bounds together). -/
def valueDisplay (a : Attr) : String :=
  if a.isUnknown then "U"
  else if a.isVariable then "V"
  else if a.isNotApplicable then "-"
  else match a.integerValue with
  | some v => toString v
  | none => match a.realValue with
    | some q => realText q
    | none => match a.textValue with
      | some s => s
      | none => match a.stateValues with
        | some ss => stateText ss
        | none => match a.rangeMin, a.rangeMax with
          | some lo, some hi => realText lo ++ "-" ++ realText hi
          | _, _ => "NULL"

/-- The `raw_value` CASE of `get_character_values` (lines 345-351): scalar
value, or the first coded state, else `ica.text_value` — which in that branch
is necessarily NULL. A range-only row therefore has NULL raw value. -/
def rawValue (a : Attr) : Option RawV :=
  match a.integerValue with
  | some v => some (.intR v)
  | none => match a.realValue with
    | some q => some (.realR q)
    | none => match a.textValue with
      | some s => some (.textR s)
      | none => match a.stateValues with
        | some ss => (ss.head?).map .intR
        | none => none

/-- `if item_numbers:` — Python truthiness: the `item_number IN (...)` filter
is added only for a non-`None`, non-empty list. -/
def itemNumberFilter : Option (List Int) → Int → Bool
  | none, _ => true
  | some [], _ => true
  | some (n :: ns), m => (n :: ns).contains m

/-- The `character_values` CTE of `get_character_values` (lines 331-359): all
non-pseudo attribute rows of the character, restricted to the given item
numbers when that filter is active. -/
def cvRows (db : DB) (charNum : Int) (itemNumbers : Option (List Int)) : List Attr :=
  db.attrs.filter fun a =>
    (db.characters.any fun c => c.id == a.characterId && c.characterNumber == charNum) &&
    (db.items.any fun i => i.id == a.itemId && itemNumberFilter itemNumbers i.itemNumber) &&
    !a.isPseudo

/-- The `(raw_value, value_display)` grouping key of a row, NULL raw values
excluded (`WHERE raw_value IS NOT NULL`). -/
def cvKey (a : Attr) : Option (RawV × String) :=
  (rawValue a).map fun r => (r, valueDisplay a)

/-- The groups of `GROUP BY raw_value, value_display`, in first-occurrence
order before sorting. -/
def cvKeys (rows : List Attr) : List (RawV × String) :=
  (rows.filterMap cvKey).dedup

/-- `COUNT(*)` of one group. -/
def cvCount (rows : List Attr) (key : RawV × String) : Nat :=
  (rows.filter fun a => cvKey a = some key).length

/-- `ORDER BY item_count DESC, value_display` of `get_character_values`. -/
def cvLE (rows : List Attr) : RawV × String → RawV × String → Prop :=
  lex2 (fun k => OrderDual.toDual (cvCount rows k)) (fun k => k.2)

instance cvLE.decidableRel (rows : List Attr) : DecidableRel (cvLE rows) :=
  lex2.decidableRel _ _
instance cvLE.total (rows : List Attr) : IsTotal (RawV × String) (cvLE rows) :=
  lex2.isTotal _ _
instance cvLE.trans (rows : List Attr) : IsTrans (RawV × String) (cvLE rows) :=
  lex2.isTrans _ _

/-- The sorted group keys of `get_character_values`'s SQL result set. -/
def cvSortedKeys (rows : List Attr) : List (RawV × String) :=
  List.insertionSort (cvLE rows) (cvKeys rows)

/-- The Python post-processing
`if isinstance(raw_value, str) and raw_value.isdigit(): raw_value = int(raw_value)`
(lines 376-377): `String.toNat?` succeeds exactly on the non-empty all-digit
strings accepted by `str.isdigit` (ASCII). -/
def pyDigitize : RawV → RawV
  | .textR s =>
    match s.toNat? with
    | some n => .intR (n : Int)
    | none => .textR s
  | r => r

/-- One `(value, description, count)` tuple returned by
`get_character_values`. -/
structure ValueEntry where
  value : RawV
  label : String
  count : Nat
deriving DecidableEq, Repr

/-- `get_character_info` (lines 396-420): first character row with the given
number; distinct values and completeness are not calculated there. -/
def getCharacterInfo (db : DB) (charNum : Int) : Option CharacterInfo :=
  (db.characters.find? fun c => c.characterNumber == charNum).map fun c =>
    { number := c.characterNumber
      description := c.featureDescription
      characterType := c.characterType
      distinctValues := 0
      codingCompleteness := 0
      states :=
        if c.characterType == "UM" || c.characterType == "OM" then
          some (getCharacterStates db charNum)
        else none }

/-- State lookup in the states mapping of a multistate character. -/
def lookupState (states : List (Int × String)) (v : Int) : Option String :=
  (states.find? fun p => p.1 == v).map fun p => p.2

/-- The state-description substitution of `get_character_values`
(lines 381-392): an integer value that is a known state of a multistate
character is displayed as `"<state>. <description>"`; everything else keeps
its SQL display text. `if char_info and char_info.states:` is Python
truthiness, so an empty states mapping disables the substitution. -/
def finalLabel (db : DB) (charNum : Int) (v : RawV) (display : String) : String :=
  match getCharacterInfo db charNum with
  | none => display
  | some ci =>
    match ci.states with
    | none => display
    | some [] => display
    | some (s :: sts) =>
      match v with
      | .intR n =>
        match lookupState (s :: sts) n with
        | some d => toString n ++ ". " ++ d
        | none => display
      | _ => display

/-- `get_character_values` (lines 319-394): SQL grouping, counting and
ordering, then the Python raw-value digitisation and state-description
substitution. -/
def getCharacterValues (db : DB) (charNum : Int)
    (itemNumbers : Option (List Int)) : List ValueEntry :=
  let rows := cvRows db charNum itemNumbers
  (cvSortedKeys rows).map fun k =>
    { value := pyDigitize k.1
      label := finalLabel db charNum (pyDigitize k.1) k.2
      count := cvCount rows k }

/-- The first-column value of a `get_character_values` tuple fed back into a
filter clause by `generate_identification_key` (`first_value =
possible_values[0][0]`). -/
def pyOfRaw : RawV → PyValue
  | .intR v => .pyInt v
  | .realR q => .pyFloat q
  | .textR s => .pyStr s

/-- One step of an identification key (`KeyStep`). The source's `query_cte`
field holds SQL text generated from the accumulated filters; the embedding
records those filters instead. -/
structure KeyStep where
  character : CharacterInfo
  possibleValues : List ValueEntry
  remainingItems : Nat
  stepFilters : List (Int × PyValue)
deriving Repr

/-- The body of `generate_identification_key`'s `for step in range(max_steps)`
loop (lines 429-476), with the remaining iteration budget as fuel:
count the survivors of the accumulated filters (all items when none yet);
stop when at most one remains; rank with the used characters excluded and stop
when no candidate remains; take the top candidate, enumerate its values
(restricted to the surviving item numbers once a filter exists), record the
step; stop after recording if no value is available, otherwise append the
first value as a clause and continue. -/
def genKeyLoop (db : DB) : Nat → List (Int × PyValue) → List KeyStep
  | 0, _ => []
  | fuel + 1, currentFilters =>
    let matching :=
      match currentFilters.getLast? with
      | some last =>
        (queryItemsByCharacter db last.1 last.2 currentFilters.dropLast).matchingItems
      | none => db.items
    if matching.length ≤ 1 then []
    else
      match getCharacterRankings db (currentFilters.map Prod.fst) with
      | [] => []
      | best :: _ =>
        let currentItems : Option (List Int) :=
          match currentFilters with
          | [] => none
          | _ :: _ => some (matching.map fun i => i.itemNumber)
        let possibleValues := getCharacterValues db best.number currentItems
        let step : KeyStep :=
          { character := best, possibleValues := possibleValues
            remainingItems := matching.length, stepFilters := currentFilters }
        match possibleValues with
        | [] => [step]
        | v :: _ =>
          step :: genKeyLoop db fuel (currentFilters ++ [(best.number, pyOfRaw v.value)])

/-- `generate_identification_key(max_steps)`. -/
def generateIdentificationKey (db : DB) (maxSteps : Nat) : List KeyStep :=
  genKeyLoop db maxSteps []

/-- The multistate clause semantics as the specification states it (§4.2):
an item's coding matches when its coded state set has non-empty intersection
with the target state set. Stated from the spec's words, for comparison with
the source's first-state condition in `multistateCondition`. -/
def specStateSetIntersects (target : List Int) (a : Attr) : Bool :=
  match a.stateValues with
  | some ss => ss.any fun s => target.contains s
  | none => false

/-! ### Concrete databases used as witnesses and counterexamples -/

/-- An attribute row with no value and no pseudo flag set; concrete rows below
override the one populated column, mirroring how
`delta_parser.create_database` fills exactly one value per row. -/
def attr0 (itemId charId : Nat) : Attr :=
  { itemId := itemId, characterId := charId, isUnknown := false, isVariable := false,
    isNotApplicable := false, integerValue := none, realValue := none, textValue := none,
    stateValues := none, rangeMin := none, rangeMax := none }

/-- The specification's worked example dataset (§8): items I1..I4; text
character A coded red/red/blue/blue; integer character B coded 1/2/3/Unknown. -/
def exDB : DB :=
  { items := [⟨1, "I1", 1⟩, ⟨2, "I2", 2⟩, ⟨3, "I3", 3⟩, ⟨4, "I4", 4⟩]
    characters := [⟨1, 1, "A", "TE", false, false⟩, ⟨2, 2, "B", "IN", false, false⟩]
    characterStates := []
    attrs :=
      [{ attr0 1 1 with textValue := some "red" },
       { attr0 2 1 with textValue := some "red" },
       { attr0 3 1 with textValue := some "blue" },
       { attr0 4 1 with textValue := some "blue" },
       { attr0 1 2 with integerValue := some 1 },
       { attr0 2 2 with integerValue := some 2 },
       { attr0 3 2 with integerValue := some 3 },
       { attr0 4 2 with isUnknown := true }] }

/-- The `CharacterInfo` the engine computes for character B of `exDB` over the
whole matrix. -/
def exInfoB : CharacterInfo :=
  { number := 2, description := "B", characterType := "IN",
    distinctValues := 3, codingCompleteness := (3 : Rat) / 4, states := none }

/-- The unknown-coded attribute row of item I4 for character B in `exDB`. -/
def exAttrU : Attr := { attr0 4 2 with isUnknown := true }

/-- A single item whose multistate coding for character 1 is the state set
{2, 3}, coded in that order. -/
def c1Attr : Attr := { attr0 1 1 with stateValues := some [2, 3] }

def c1DB : DB :=
  ⟨[⟨1, "S1", 1⟩], [⟨1, 1, "sculpture", "UM", false, false⟩], [], [c1Attr]⟩

/-- A single item with a pure range coding (range_min 2, range_max 5) for
character 1. -/
def c9Attr : Attr := { attr0 1 1 with rangeMin := some 2, rangeMax := some 5 }

def c9DB : DB :=
  ⟨[⟨1, "R1", 1⟩], [⟨1, 1, "length", "RN", false, false⟩], [], [c9Attr]⟩

/-- The single key step generated for `exDB`. -/
def exKeyStep : KeyStep :=
  { character := exInfoB
    possibleValues :=
      [⟨.intR 1, "1", 1⟩, ⟨.intR 2, "2", 1⟩, ⟨.intR 3, "3", 1⟩]
    remainingItems := 4
    stepFilters := [] }

/-! ### Helper lemmas -/

theorem mem_of_mem_foldl_filterStep {db : DB} {chain : List (Int × PyValue)}
    {s : List Item} {i : Item} (h : i ∈ List.foldl (filterStep db) s chain) : i ∈ s := by
  induction chain generalizing s with
  | nil => exact h
  | cons cl rest ih => exact List.mem_of_mem_filter (ih h)

theorem matches_of_mem_foldl {db : DB} {s : List Item} {chain : List (Int × PyValue)}
    {i : Item} {cl : Int × PyValue} (hcl : cl ∈ chain)
    (h : i ∈ List.foldl (filterStep db) s chain) :
    matchesClause db cl.1 cl.2 i = true := by
  induction chain generalizing s with
  | nil => cases hcl
  | cons c0 rest ih =>
    rcases List.mem_cons.mp hcl with rfl | hmem
    · exact (List.mem_filter.mp (mem_of_mem_foldl_filterStep h)).2
    · exact ih hmem h

/-! ### Claim theorems -/

/-- C4: appending any clause to any filter chain can only shrink the set of
surviving items: the new clause filters the previous chain's survivors. -/
theorem c4_monotonic_narrowing (db : DB) (chain : List (Int × PyValue))
    (clause : Int × PyValue) :
    (applyChain db (chain ++ [clause])).length ≤ (applyChain db chain).length := by
  unfold applyChain
  rw [List.foldl_append]
  exact List.length_filter_le _ _

/-- C1: the claim asks for full set-intersection multistate semantics, but the
filter compares only the item's FIRST coded state against the target set.
For the coding {2, 3} (coded in that order) and target set {3} the
intersection is non-empty, yet the engine drops the item; with target set {2}
it keeps it, only because 2 happens to be the first coded state. -/
theorem c1_multistate_uses_first_state_only :
    specStateSetIntersects [3] c1Attr = true ∧
    c1Attr.isPseudo = false ∧
    applyChain c1DB [(1, .pyList [.pyInt 3])] = [] ∧
    applyChain c1DB [(1, .pyList [.pyInt 2])] = c1DB.items := by decide

/-- C2: the claim (and spec) require an `UnsupportedValueError` for a filter
value of unrecognised shape; the code instead substitutes the SQL condition
`1=1`, so such a clause matches every item that has any non-pseudo coding for
the character — here the whole item set survives. -/
theorem c2_unsupported_value_matches_all :
    valueCondition .pyOther c1Attr = true ∧
    applyChain c1DB [(1, .pyOther)] = c1DB.items := by decide

/-- C10: a clause with a single integer value `v` keeps exactly the items in
the source set that have a non-pseudo coding for the character whose scalar
integer value equals `v` OR whose first coded state (and only the first)
equals `v` — so integer clauses reach into multistate codings via
`json_extract(state_values, '$[0]')`. -/
theorem c10_integer_clause_reaches_first_state (db : DB) (s : List Item)
    (charNum : Int) (v : Int) (i : Item) :
    i ∈ filterStep db s (charNum, .pyInt v) ↔
      i ∈ s ∧ ∃ a ∈ db.attrs, a.itemId = i.id ∧
        (∃ c ∈ db.characters, c.id = a.characterId ∧ c.characterNumber = charNum) ∧
        a.isPseudo = false ∧
        (a.integerValue = some v ∨ firstState a = some v) := by
  simp only [filterStep, matchesClause, valueCondition, List.mem_filter,
    List.any_eq_true, Bool.and_eq_true, beq_iff_eq, Bool.or_eq_true,
    Bool.not_eq_true']
  aesop

/-- C7: an item whose single attribute row for character `c` is a pseudo value
(Unknown/Variable/NotApplicable) (i) never survives any chain containing a
clause on `c`, whatever the clause value; and its coding (ii) maps to NULL in
the distinct-count CASE, (iii) contributes nothing to any distinct count,
(iv) is not counted by the non-pseudo numerator of `c`'s coding completeness,
and (v) is excluded from the rows grouped by `get_character_values`. The
uniqueness hypotheses are the data-model invariants: one attribute row per
(item, character) and one character per character number. -/
theorem c7_pseudo_value_exclusion (db : DB) (i : Item) (a : Attr) (c : Character)
    (ha : a ∈ db.attrs) (hai : a.itemId = i.id) (hac : a.characterId = c.id)
    (hp : a.isPseudo = true)
    (huniq : ∀ a' ∈ db.attrs, a'.itemId = i.id → a'.characterId = c.id → a' = a)
    (hcuniq : ∀ c' ∈ db.characters, c'.characterNumber = c.characterNumber → c'.id = c.id) :
    (∀ chain : List (Int × PyValue), (∃ v, (c.characterNumber, v) ∈ chain) →
      i ∉ applyChain db chain) ∧
    distinctCaseVal a = none ∧
    (∀ rows : List Attr, distinctCount (a :: rows) = distinctCount rows) ∧
    a ∉ ((charCodings db c).filter fun x => !x.isPseudo) ∧
    (∀ itemsOpt : Option (List Int), a ∉ cvRows db c.characterNumber itemsOpt) := by
  have hnull : distinctCaseVal a = none := by
    unfold distinctCaseVal
    rw [if_pos hp]
  refine ⟨?_, hnull, ?_, ?_, ?_⟩
  · intro chain ⟨v, hv⟩ hmem
    have hm : matchesClause db c.characterNumber v i = true :=
      matches_of_mem_foldl hv hmem
    rw [matchesClause, List.any_eq_true] at hm
    obtain ⟨a', ha', hcond⟩ := hm
    simp only [Bool.and_eq_true, beq_iff_eq, List.any_eq_true, Bool.not_eq_true'] at hcond
    obtain ⟨⟨⟨hitem, c', hc', hcid, hcnum⟩, hnp⟩, -⟩ := hcond
    have : a' = a := huniq a' ha' hitem ((hcuniq c' hc' hcnum) ▸ hcid.symm)
    rw [this, hp] at hnp
    cases hnp
  · intro rows
    unfold distinctCount
    rw [List.filterMap_cons_none hnull]
  · intro hmem
    have := (List.mem_filter.mp hmem).2
    rw [Bool.not_eq_true'] at this
    rw [hp] at this
    cases this
  · intro itemsOpt hmem
    have := (List.mem_filter.mp hmem).2
    simp only [Bool.and_eq_true, Bool.not_eq_true'] at this
    rw [hp] at this
    exact absurd this.2 (by simp)

/-- C7 witness: in the §8 example dataset, item I4 is coded Unknown for
character B; it survives no clause on B and its row is invisible to the
distinct-value count. -/
theorem c7_witness :
    (⟨4, "I4", 4⟩ : Item) ∉ applyChain exDB [((2 : Int), PyValue.pyInt 1)] ∧
    distinctCaseVal exAttrU = none := by
  have h := c7_pseudo_value_exclusion exDB ⟨4, "I4", 4⟩ exAttrU
    ⟨2, 2, "B", "IN", false, false⟩
    (by decide) (by decide) (by decide) (by decide) (by decide) (by decide)
  exact ⟨h.1 [((2 : Int), .pyInt 1)] ⟨.pyInt 1, List.mem_singleton_self _⟩, h.2.1⟩

theorem characterMetrics_eq_some {db : DB} {c : Character} {ci : CharacterInfo} :
    characterMetrics db c = some ci ↔
      ((charCodings db c).length ≠ 0 ∧ (1 : Rat) / 2 < charCompleteness db c ∧
        1 < charDistinct db c) ∧ ci = mkCharacterInfo db c := by
  unfold characterMetrics
  split
  case isTrue h =>
    constructor
    · intro hs
      exact ⟨h, (Option.some.inj hs).symm⟩
    · rintro ⟨-, rfl⟩
      rfl
  case isFalse h =>
    simp only [false_iff, reduceCtorEq]
    rintro ⟨hc, -⟩
    exact h hc

/-- Membership in `get_character_rankings`'s output, characterised: exactly
the non-omitted, non-mandatory, non-excluded characters with at least one
coding, completeness above one half and more than one distinct value. -/
theorem mem_getCharacterRankings {db : DB} {excluded : List Int} {ci : CharacterInfo} :
    ci ∈ getCharacterRankings db excluded ↔
      ∃ c ∈ db.characters,
        c.omitFromKey = false ∧ c.mandatory = false ∧
        excluded.contains c.characterNumber = false ∧
        charCodings db c ≠ [] ∧
        (1 : Rat) / 2 < charCompleteness db c ∧ 1 < charDistinct db c ∧
        ci = mkCharacterInfo db c := by
  unfold getCharacterRankings
  rw [List.mem_insertionSort, List.mem_filterMap]
  constructor
  · rintro ⟨c, hc, hm⟩
    obtain ⟨hmem, hcond⟩ := List.mem_filter.mp hc
    simp only [Bool.and_eq_true, Bool.not_eq_true'] at hcond
    obtain ⟨⟨hnotc, hcs⟩, hm'⟩ := characterMetrics_eq_some.mp hm
    exact ⟨c, hmem, hcond.1.1, hcond.1.2, hcond.2,
      fun hnil => hnotc (by rw [hnil]; rfl), hcs.1, hcs.2, hm'⟩
  · rintro ⟨c, hmem, h1, h2, h3, h4, h5, h6, h7⟩
    refine ⟨c, List.mem_filter.mpr ⟨hmem, ?_⟩, characterMetrics_eq_some.mpr
      ⟨⟨fun hz => h4 (List.length_eq_zero.mp hz), h5, h6⟩, h7⟩⟩
    rw [h1, h2, h3]
    rfl

/-- C5: `rank` returns exactly the characters that are not excluded, not
mandatory, not omitted from the key, have at least one coding, coding
completeness above 0.5 and more than one distinct value; every returned
`CharacterInfo` has selectivity score = distinct values × completeness
(exactly — the scores are rationals, so the 1e-9 tolerance is met); and the
output is sorted by `rankLE`, i.e. descending selectivity score with ties
broken by descending distinct values. -/
theorem c5_rank_contents (db : DB) (excluded : List Int) :
    (∀ ci, ci ∈ getCharacterRankings db excluded ↔
      ∃ c ∈ db.characters,
        c.omitFromKey = false ∧ c.mandatory = false ∧
        excluded.contains c.characterNumber = false ∧
        charCodings db c ≠ [] ∧
        (1 : Rat) / 2 < charCompleteness db c ∧ 1 < charDistinct db c ∧
        ci = mkCharacterInfo db c) ∧
    (∀ ci ∈ getCharacterRankings db excluded,
      ci.selectivityScore = (ci.distinctValues : Rat) * ci.codingCompleteness) ∧
    (getCharacterRankings db excluded).Sorted rankLE :=
  ⟨fun _ => mem_getCharacterRankings, fun _ _ => rfl,
    List.sorted_insertionSort rankLE _⟩

/-- C5 witness: on the §8 example dataset, character B is returned (distinct
values 3, completeness 3/4) and its score satisfies the formula. -/
theorem c5_witness :
    exInfoB ∈ getCharacterRankings exDB [] ∧
    exInfoB.selectivityScore = (exInfoB.distinctValues : Rat) * exInfoB.codingCompleteness :=
  ⟨by with_unfolding_all decide,
    (c5_rank_contents exDB []).2.1 exInfoB (by with_unfolding_all decide)⟩

theorem mem_filterDiscriminating {db : DB} {cands : List CharacterInfo}
    {nums : List Int} {ci : CharacterInfo}
    (h : ci ∈ filterDiscriminating db cands nums) :
    ci ∈ cands ∧ 1 < distinctAmong db ci.number nums := by
  unfold filterDiscriminating at h
  split at h
  · cases h
  · have hm := List.mem_filter.mp h
    exact ⟨hm.1, by simpa using hm.2⟩

/-- C3 counterexample: filtering the §8 example dataset by A = "red" leaves
items {I1, I2}; `proposeNext` then returns candidate B carrying
`distinctValues = 3` and `codingCompleteness = 3/4` — the whole-matrix
metrics — although over the exact surviving set B's distinct count is 2 (and
its completeness would be 1). The claim's "computed over exactly the
surviving item set" is therefore false. -/
theorem c3_counterexample :
    ((queryItemsByCharacter exDB 1 (.pyStr "red") []).matchingItems.map
      fun i => i.itemNumber) = [1, 2] ∧
    ((queryItemsByCharacter exDB 1 (.pyStr "red") []).characterCandidates.map
      fun ci => ci.distinctValues) = [3] ∧
    ((queryItemsByCharacter exDB 1 (.pyStr "red") []).characterCandidates.map
      fun ci => ci.codingCompleteness) = [(3 : Rat) / 4] ∧
    distinctAmong exDB 2 [1, 2] = 2 := by with_unfolding_all decide

/-- C3 (amended): every candidate returned by `proposeNext` carries the
metrics of `rank` computed over the FULL item matrix (it is a member of the
unrestricted ranking for the used-character exclusion set, i.e. equal to
`mkCharacterInfo` of its character over all of `db.attrs`); the surviving set
enters only through the pruning recheck, which guarantees the candidate's
distinct count recomputed over the exact survivors exceeds 1. -/
theorem c3_candidates_use_full_matrix_metrics (db : DB) (charNum : Int)
    (value : PyValue) (prev : List (Int × PyValue)) (ci : CharacterInfo)
    (h : ci ∈ (queryItemsByCharacter db charNum value prev).characterCandidates) :
    (∃ c ∈ db.characters, ci = mkCharacterInfo db c) ∧
    ci ∈ getCharacterRankings db ((prev ++ [(charNum, value)]).map Prod.fst) ∧
    1 < distinctAmong db ci.number
      ((queryItemsByCharacter db charNum value prev).matchingItems.map
        fun i => i.itemNumber) := by
  simp only [queryItemsByCharacter] at h ⊢
  split at h
  · cases h
  · have hm := mem_filterDiscriminating h
    obtain ⟨c, hc, -, -, -, -, -, -, heq⟩ := mem_getCharacterRankings.mp hm.1
    exact ⟨⟨c, hc, heq⟩, hm.1, hm.2⟩

/-- C3 amended-claim witness, on the §8 example dataset with chain
A = "red". -/
theorem c3_witness :
    (∃ c ∈ exDB.characters, exInfoB = mkCharacterInfo exDB c) ∧
    exInfoB ∈ getCharacterRankings exDB [1] ∧
    1 < distinctAmong exDB exInfoB.number
      ((queryItemsByCharacter exDB 1 (.pyStr "red") []).matchingItems.map
        fun i => i.itemNumber) :=
  c3_candidates_use_full_matrix_metrics exDB 1 (.pyStr "red") [] exInfoB
    (by with_unfolding_all decide)

/-- C6: the discriminating-character filter returns the empty list whenever at
most one item survives; every candidate it keeps has distinct count over the
surviving item numbers strictly greater than 1; and consequently every
candidate returned by `query_items_by_character` has distinct count over the
exact surviving item set strictly greater than 1. -/
theorem c6_prune_soundness (db : DB) (cands : List CharacterInfo)
    (remaining : List Int) (charNum : Int) (value : PyValue)
    (prev : List (Int × PyValue)) :
    (remaining.length ≤ 1 → filterDiscriminating db cands remaining = []) ∧
    (∀ ch ∈ filterDiscriminating db cands remaining,
      1 < distinctAmong db ch.number remaining) ∧
    (∀ ch ∈ (queryItemsByCharacter db charNum value prev).characterCandidates,
      1 < distinctAmong db ch.number
        ((queryItemsByCharacter db charNum value prev).matchingItems.map
          fun i => i.itemNumber)) := by
  refine ⟨fun h => ?_, fun ch h => (mem_filterDiscriminating h).2, fun ch h => ?_⟩
  · unfold filterDiscriminating
    rw [if_pos h]
  · simp only [queryItemsByCharacter] at h ⊢
    split at h
    · cases h
    · exact (mem_filterDiscriminating h).2

/-- C6 witness: pruning candidate B against survivors {I1, I2} of the §8
example keeps it, and its recomputed distinct count there is 2 > 1. -/
theorem c6_witness :
    1 < distinctAmong exDB exInfoB.number
      ((queryItemsByCharacter exDB 1 (.pyStr "red") []).matchingItems.map
        fun i => i.itemNumber) :=
  (c6_prune_soundness exDB [] [] 1 (.pyStr "red") []).2.2 exInfoB
    (by with_unfolding_all decide)

theorem genKeyLoop_length_le (db : DB) :
    ∀ (fuel : Nat) (fs : List (Int × PyValue)), (genKeyLoop db fuel fs).length ≤ fuel := by
  intro fuel
  induction fuel with
  | zero => intro fs; simp [genKeyLoop]
  | succ n ih =>
    intro fs
    simp only [genKeyLoop]
    split
    · simp
    · split
      · simp
      · split
        · simp
        · simpa using Nat.succ_le_succ (ih _)

theorem genKeyLoop_mem (db : DB) :
    ∀ (fuel : Nat) (fs : List (Int × PyValue)) (s : KeyStep),
      s ∈ genKeyLoop db fuel fs →
      1 < s.remainingItems ∧
      ∃ rest, getCharacterRankings db (s.stepFilters.map Prod.fst) =
        s.character :: rest := by
  intro fuel
  induction fuel with
  | zero => intro fs s h; simp [genKeyLoop] at h
  | succ n ih =>
    intro fs s h
    simp only [genKeyLoop] at h
    split at h
    · cases h
    · rename_i hgt
      split at h
      · cases h
      · rename_i best tail heq
        split at h
        · rcases List.mem_singleton.mp h with rfl
          exact ⟨Nat.not_le.mp hgt, tail, heq⟩
        · rcases List.mem_cons.mp h with rfl | hmem
          · exact ⟨Nat.not_le.mp hgt, tail, heq⟩
          · exact ih _ _ hmem

/-- C8: `buildKey` always terminates with at most `maxSteps` recorded steps;
a step is only recorded while strictly more than one item survives (the loop
stops, recording nothing further, as soon as the survivor count is ≤ 1) and
only when the candidate ranking for the accumulated chain is non-empty, the
step's character being its head; continuation appends the chosen clause to
the chain (each recorded step's `stepFilters` is exactly the chain accumulated
so far, against which its ranking was computed). -/
theorem c8_key_generation_terminates (db : DB) (maxSteps : Nat) :
    (generateIdentificationKey db maxSteps).length ≤ maxSteps ∧
    ∀ s ∈ generateIdentificationKey db maxSteps,
      1 < s.remainingItems ∧
      ∃ rest, getCharacterRankings db (s.stepFilters.map Prod.fst) =
        s.character :: rest :=
  ⟨genKeyLoop_length_le db maxSteps [],
    fun s h => genKeyLoop_mem db maxSteps [] s h⟩

/-- C8 witness: key generation on the §8 example dataset records exactly one
step (character B with 4 surviving items); the step then narrows the items to
{I1} and the loop stops. -/
theorem c8_witness :
    1 < exKeyStep.remainingItems ∧
    ∃ rest, getCharacterRankings exDB (exKeyStep.stepFilters.map Prod.fst) =
      exKeyStep.character :: rest :=
  (c8_key_generation_terminates exDB 3).2 exKeyStep
    (by rw [show generateIdentificationKey exDB 3 = [exKeyStep] from by
              with_unfolding_all rfl]
        exact List.mem_singleton_self _)

theorem length_filter_eq_count_filterMap {α β : Type} [DecidableEq β]
    (f : α → Option β) (l : List α) (b : β) :
    (l.filter fun a => f a = some b).length = (l.filterMap f).count b := by
  induction l with
  | nil => rfl
  | cons x xs ih =>
    rw [List.filter_cons]
    cases hx : f x with
    | none =>
      rw [List.filterMap_cons_none hx]
      have hfx : decide (f x = some b) = false := by rw [hx]; rfl
      simp [hfx, ih]
    | some y =>
      rw [List.filterMap_cons_some hx]
      by_cases hb : y = b
      · subst hb
        have hfx : decide (f x = some y) = true := by rw [hx]; simp
        simp [hfx, ih, List.count_cons]
      · have hfx : decide (f x = some b) = false := by
          rw [hx]
          simp [hb]
        simp [hfx, ih, List.count_cons, hb, Ne.symm hb]

theorem length_filterMap_eq_length_filter {α β : Type} (f : α → Option β) (l : List α) :
    (l.filterMap f).length = (l.filter fun a => (f a).isSome).length := by
  induction l with
  | nil => rfl
  | cons x xs ih =>
    rw [List.filter_cons]
    cases hx : f x with
    | none => rw [List.filterMap_cons_none hx]; simp [hx, ih]
    | some y => rw [List.filterMap_cons_some hx]; simp [hx, ih]

/-- C9 counterexample: a non-pseudo Range coding is selected into the
`character_values` CTE but its `raw_value` CASE yields NULL (the ELSE branch
re-reads the NULL `text_value`), so `WHERE raw_value IS NOT NULL` drops it:
it contributes to NO group, and `valuesOf` returns an empty list although one
non-pseudo coding exists. This contradicts the claim's "every non-pseudo
coding, including Range codings, contributes to exactly one group". -/
theorem c9_counterexample :
    c9Attr.isPseudo = false ∧
    c9Attr ∈ cvRows c9DB 1 none ∧
    rawValue c9Attr = none ∧
    getCharacterValues c9DB 1 none = [] := by with_unfolding_all decide

/-- C9 (amended): `valuesOf` groups the non-pseudo codings WITH a non-null raw
value — Range-only codings have NULL raw value and contribute to no group —
one entry per distinct (raw value, display) pair: every such coding lands in
exactly one group (the keys are duplicate-free and the entry counts sum to
the number of rows with a raw value); the SQL result is sorted by item count
descending then display label ascending (`cvLE`, on the pre-substitution
display); each returned entry carries its group's count, its digitised raw
value, and the display label with the state description substituted for
integer values of multistate characters when available. -/
theorem c9_value_enumeration (db : DB) (charNum : Int)
    (itemsOpt : Option (List Int)) :
    (∀ a ∈ cvRows db charNum itemsOpt, ∀ r, rawValue a = some r →
      (r, valueDisplay a) ∈ cvKeys (cvRows db charNum itemsOpt)) ∧
    (cvKeys (cvRows db charNum itemsOpt)).Nodup ∧
    (getCharacterValues db charNum itemsOpt).length =
      (cvKeys (cvRows db charNum itemsOpt)).length ∧
    ((getCharacterValues db charNum itemsOpt).map fun e => e.count).sum =
      ((cvRows db charNum itemsOpt).filter fun a => (rawValue a).isSome).length ∧
    (cvSortedKeys (cvRows db charNum itemsOpt)).Sorted
      (cvLE (cvRows db charNum itemsOpt)) ∧
    (∀ e ∈ getCharacterValues db charNum itemsOpt,
      ∃ k ∈ cvKeys (cvRows db charNum itemsOpt),
        e.value = pyDigitize k.1 ∧
        e.label = finalLabel db charNum (pyDigitize k.1) k.2 ∧
        e.count = cvCount (cvRows db charNum itemsOpt) k) := by
  refine ⟨?_, List.nodup_dedup _, ?_, ?_, List.sorted_insertionSort _ _, ?_⟩
  · intro a ha r hr
    exact List.mem_dedup.mpr
      (List.mem_filterMap.mpr ⟨a, ha, by rw [cvKey, hr]; rfl⟩)
  · simp only [getCharacterValues, List.length_map, cvSortedKeys,
      List.length_insertionSort]
  · have hperm : List.Perm (cvSortedKeys (cvRows db charNum itemsOpt))
        (cvKeys (cvRows db charNum itemsOpt)) := List.perm_insertionSort _ _
    have hmaps : ((getCharacterValues db charNum itemsOpt).map fun e => e.count) =
        ((cvSortedKeys (cvRows db charNum itemsOpt)).map
          (cvCount (cvRows db charNum itemsOpt))) := by
      simp only [getCharacterValues, List.map_map]
      rfl
    have hsum := List.sum_map_count_dedup_eq_length
      ((cvRows db charNum itemsOpt).filterMap cvKey)
    have hfc : ((cvRows db charNum itemsOpt).filter fun a => (cvKey a).isSome) =
        ((cvRows db charNum itemsOpt).filter fun a => (rawValue a).isSome) := by
      apply List.filter_congr
      intro a _
      unfold cvKey
      cases rawValue a <;> rfl
    have hlen : ((cvRows db charNum itemsOpt).filterMap cvKey).length =
        ((cvRows db charNum itemsOpt).filter fun a => (rawValue a).isSome).length :=
      (length_filterMap_eq_length_filter cvKey _).trans (congrArg List.length hfc)
    rw [hmaps, (hperm.map (cvCount (cvRows db charNum itemsOpt))).sum_eq, cvKeys]
    exact (congrArg List.sum (List.map_congr_left fun k _ =>
      length_filter_eq_count_filterMap cvKey _ k)).trans (hsum.trans hlen)
  · intro e he
    simp only [getCharacterValues] at he
    obtain ⟨k, hk, rfl⟩ := List.mem_map.mp he
    have hk2 : k ∈ cvKeys (cvRows db charNum itemsOpt) := by
      unfold cvSortedKeys at hk
      rw [List.mem_insertionSort] at hk
      exact hk
    exact ⟨k, hk2, rfl, rfl, rfl⟩

/-- C9 amended-claim witness: on the §8 example dataset the entry
("blue", "blue", 2) returned for character A arises from exactly the group
keyed (blue, "blue") with count 2. -/
theorem c9_witness :
    ∃ k ∈ cvKeys (cvRows exDB 1 none),
      (⟨.textR "blue", "blue", 2⟩ : ValueEntry).value = pyDigitize k.1 ∧
      (⟨.textR "blue", "blue", 2⟩ : ValueEntry).label =
        finalLabel exDB 1 (pyDigitize k.1) k.2 ∧
      (⟨.textR "blue", "blue", 2⟩ : ValueEntry).count =
        cvCount (cvRows exDB 1 none) k :=
  (c9_value_enumeration exDB 1 none).2.2.2.2.2 ⟨.textR "blue", "blue", 2⟩
    (by with_unfolding_all decide)

end Delta
